import Mathlib

/-!
Shallow embedding of the Express product API in `src/server.js`: the in-memory
product store, the authentication and validation middleware, the query engine
(category/stock filtering, pagination, search), the statistics aggregation and
the CRUD handlers, together with theorems settling the specification claims.

JavaScript numbers are modelled as exact rationals (`ℚ`), absent/typed JSON
body fields as an inductive `Field`, and each route handler as a pure function
from its inputs (headers, query parameters, body, store) to a typed result
plus the new store.
-/

namespace ProductApi

/-- A JSON value occupying one field of a request body: it can be absent
(`undefined`), `null`, a string, a number, or a boolean. -/
inductive Field where
  | absent
  | jsNull
  | str (s : String)
  | num (q : ℚ)
  | boolean (b : Bool)
deriving DecidableEq, Repr

/-- JavaScript truthiness of a body field: `undefined`, `null`, `""`, `0` and
`false` are falsy. -/
def isFalsy : Field → Bool
  | .absent => true
  | .jsNull => true
  | .str s => s == ""
  | .num q => q == 0
  | .boolean b => !b

/-- A request body for create/update: the five product fields, each possibly
absent or of the wrong type. -/
structure Body where
  name : Field
  description : Field
  price : Field
  category : Field
  inStock : Field
deriving DecidableEq, Repr

/-- A stored product record. -/
structure Product where
  id : String
  name : String
  description : String
  price : ℚ
  category : String
  inStock : Bool
deriving DecidableEq, Repr

/-- The sample in-memory products database seeded in `server.js`. -/
def products : List Product :=
  [ { id := "1", name := "Laptop",
      description := "High-performance laptop with 16GB RAM",
      price := 1200, category := "electronics", inStock := true },
    { id := "2", name := "Smartphone",
      description := "Latest model with 128GB storage",
      price := 800, category := "electronics", inStock := true },
    { id := "3", name := "Coffee Maker",
      description := "Programmable coffee maker with timer",
      price := 50, category := "kitchen", inStock := false },
    { id := "4", name := "Gaming Chair",
      description := "Ergonomic gaming chair with lumbar support",
      price := 300, category := "furniture", inStock := true },
    { id := "5", name := "Wireless Headphones",
      description := "Noise-cancelling wireless headphones",
      price := 150, category := "electronics", inStock := true } ]

/-- JavaScript `s.trim()` (ASCII whitespace): drop whitespace from both ends
of the character list. -/
def jsTrim (s : String) : String :=
  ⟨((s.data.dropWhile Char.isWhitespace).reverse.dropWhile Char.isWhitespace).reverse⟩

/-- JavaScript `s.toLowerCase()` (ASCII): lowercase every character. -/
def jsToLower (s : String) : String :=
  ⟨s.data.map Char.toLower⟩

/-- The check `!x || typeof x !== 'string' || x.trim().length === 0` applied
to `name`, `description` and `category` in `validateProduct`: every non-string
value errors (falsy ones via `!x`, truthy ones via the `typeof` test), and a
string errors exactly when it is empty or whitespace-only. -/
def stringFieldErr : Field → Bool
  | .str s => s == "" || (jsTrim s).length == 0
  | _ => true

/-- The check `price === undefined || typeof price !== 'number' || price <= 0`
in `validateProduct`. -/
def priceErr : Field → Bool
  | .num q => q ≤ 0
  | _ => true

/-- The check `inStock !== undefined && typeof inStock !== 'boolean'` in
`validateProduct`: absent is fine, booleans are fine, anything else errors. -/
def inStockErr : Field → Bool
  | .absent => false
  | .boolean _ => false
  | _ => true

/-- The `validateProduct` middleware: the ordered list of violation messages
it pushes; the request proceeds exactly when this list is empty. -/
def validateProduct (b : Body) : List String :=
  (if stringFieldErr b.name then ["Name is required and must be a non-empty string"] else []) ++
  (if stringFieldErr b.description then ["Description is required and must be a non-empty string"] else []) ++
  (if priceErr b.price then ["Price is required and must be a positive number"] else []) ++
  (if stringFieldErr b.category then ["Category is required and must be a non-empty string"] else []) ++
  (if inStockErr b.inStock then ["inStock must be a boolean value"] else [])

/-- The 401 body sent by `authMiddleware`. -/
def authFailMsg : String :=
  "Unauthorized: Invalid or missing API key. Include x-api-key header."

/-- The `authMiddleware` pass condition: `!(!apiKey || apiKey !== 'your-secret-api-key')`,
where a missing `x-api-key` header is `none` and an empty header value is falsy. -/
def authPasses : Option String → Bool
  | none => false
  | some k => !(k == "") && k == "your-secret-api-key"

/-- Accumulate the value of the leading run of decimal digits; `none` when no
digit has been seen yet (JavaScript `NaN`). -/
def leadNat (acc : Option Nat) : List Char → Option Nat
  | [] => acc
  | c :: rest =>
    if c.isDigit then leadNat (some ((acc.getD 0) * 10 + (c.toNat - Char.toNat '0'))) rest
    else acc

/-- JavaScript `parseInt(s)` restricted to base 10: skip surrounding
whitespace, read an optional sign and the leading digit run; `none` models
`NaN` (no digits found). -/
def parseIntJS (s : String) : Option Int :=
  match (jsTrim s).toList with
  | '-' :: rest => (leadNat none rest).map (fun n => -(n : Int))
  | '+' :: rest => (leadNat none rest).map (fun n => (n : Int))
  | cs => (leadNat none cs).map (fun n => (n : Int))

/-- The idiom `parseInt(q) || d` used for `page` and `limit`: a missing
parameter parses to `NaN` (falsy), a non-numeric string parses to `NaN`
(falsy), and a parse result of `0` is itself falsy, so all three fall back to
the default `d`. -/
def parseOrDefault (q : Option String) (d : Int) : Int :=
  match q with
  | none => d
  | some s =>
    match parseIntJS s with
    | none => d
    | some v => if v == 0 then d else v

/-- `if (req.query.category) { filter... }`: an absent or empty category
parameter is a no-op; otherwise keep products whose lowercased category equals
the lowercased parameter. -/
def filterByCategory (qcat : Option String) (items : List Product) : List Product :=
  match qcat with
  | none => items
  | some c =>
    if c == "" then items
    else items.filter (fun p => jsToLower p.category == jsToLower c)

/-- `if (req.query.inStock !== undefined) { filter... }`: an absent parameter
is a no-op; otherwise keep products whose `inStock` equals
`req.query.inStock === 'true'`. -/
def filterByStock (qstock : Option String) (items : List Product) : List Product :=
  match qstock with
  | none => items
  | some s => items.filter (fun p => p.inStock == (s == "true"))

/-- `Math.ceil(a / l)` for a natural numerator and positive natural
denominator, computed exactly: the ceiling of the rational `a / l`, expressed
as the negated floor division of the negated numerator. -/
def jsCeilDiv (a l : Nat) : Nat :=
  (-(Int.ediv (-(a : Int)) (l : Int))).toNat

/-- The pagination metadata object returned by `GET /api/products`. -/
structure Pagination where
  currentPage : Int
  totalPages : Nat
  totalProducts : Nat
  productsPerPage : Int
  hasNextPage : Bool
  hasPrevPage : Bool
deriving DecidableEq, Repr

/-- Result of `GET /api/products`: a 400 on bad pagination, or the page of
products with its metadata. -/
inductive ListResult where
  | badPagination (msg : String)
  | ok (items : List Product) (pg : Pagination)
deriving DecidableEq, Repr

/-- The pagination tail of the `GET /api/products` handler, applied to the
already-filtered list: reject `page < 1 || limit < 1` with a 400, otherwise
slice `[(page-1)*limit, page*limit)` and attach the metadata. -/
def paginate (page limit : Int) (filtered : List Product) : ListResult :=
  if page < 1 ∨ limit < 1 then
    .badPagination "Page and limit must be positive integers"
  else
    let p := page.toNat
    let l := limit.toNat
    let startIndex := (p - 1) * l
    let endIndex := p * l
    .ok ((filtered.drop startIndex).take (endIndex - startIndex))
      { currentPage := page
        totalPages := jsCeilDiv filtered.length l
        totalProducts := filtered.length
        productsPerPage := limit
        hasNextPage := decide (endIndex < filtered.length)
        hasPrevPage := decide (1 < page) }

/-- The `GET /api/products` handler: category filter, then stock filter, then
pagination with `page = parseInt(req.query.page) || 1` and
`limit = parseInt(req.query.limit) || 10`. -/
def getProducts (qcat qstock qpage qlimit : Option String) (store : List Product) :
    ListResult :=
  paginate (parseOrDefault qpage 1) (parseOrDefault qlimit 10)
    (filterByStock qstock (filterByCategory qcat store))

/-- Whether `needle` is a prefix of the character list `hay`. -/
def listIsPre : List Char → List Char → Bool
  | [], _ => true
  | _ :: _, [] => false
  | a :: as, b :: bs => a == b && listIsPre as bs

/-- Whether `needle` occurs contiguously somewhere in `hay`. -/
def listHasSub (needle : List Char) : List Char → Bool
  | [] => listIsPre needle []
  | c :: rest => listIsPre needle (c :: rest) || listHasSub needle rest

/-- JavaScript `hay.includes(needle)`: contiguous substring containment. -/
def strIncludes (hay needle : String) : Bool :=
  listHasSub needle.toList hay.toList

/-- The search predicate of `GET /api/products/search`:
`p.name.toLowerCase().includes(term) || p.description.toLowerCase().includes(term)`
where `term` is the lowercased query. -/
def matchesTerm (p : Product) (term : String) : Bool :=
  strIncludes (jsToLower p.name) term || strIncludes (jsToLower p.description) term

/-- Result of `GET /api/products/search`: a 400 when `q` is missing/empty, or
the body `{searchTerm, results, count}`. -/
inductive SearchResult where
  | missingQuery (msg : String)
  | found (searchTerm : String) (results : List Product) (count : Nat)
deriving DecidableEq, Repr

/-- The `GET /api/products/search` handler: `if (!q)` rejects an absent or
empty query with a 400; otherwise filter on the lowercased term. -/
def searchProducts (q : Option String) (store : List Product) : SearchResult :=
  match q with
  | none => .missingQuery "Search query parameter \"q\" is required"
  | some s =>
    if s == "" then .missingQuery "Search query parameter \"q\" is required"
    else
      let searchTerm := jsToLower s
      let searchResults := store.filter (fun p => matchesTerm p searchTerm)
      .found s searchResults searchResults.length

/-- `{min, max}` price range of the stats object; `none` models `null`. -/
structure PriceRange where
  min : Option ℚ
  max : Option ℚ
deriving DecidableEq, Repr

/-- The stats accumulator/response of `GET /api/stats`; `byCategory` is an
association list in first-seen key order. -/
structure Stats where
  total : Nat
  byCategory : List (String × Nat)
  inStock : Nat
  outOfStock : Nat
  totalValue : ℚ
  priceRange : PriceRange
  averagePrice : ℚ
deriving DecidableEq, Repr

/-- `acc.byCategory[c] = (acc.byCategory[c] || 0) + 1` on an association
list: bump the existing key or append a new one at the end. -/
def bumpCat (c : String) : List (String × Nat) → List (String × Nat)
  | [] => [(c, 1)]
  | (k, n) :: rest => if k == c then (k, n + 1) :: rest else (k, n) :: bumpCat c rest

/-- The min update `if (!acc.priceRange.min || price < acc.priceRange.min)`:
note the falsy test, so a current min of `null` (or `0`) is overwritten
unconditionally. -/
def updMin (cur : Option ℚ) (price : ℚ) : Option ℚ :=
  match cur with
  | none => some price
  | some m => if m == 0 || price < m then some price else some m

/-- The max update `if (!acc.priceRange.max || price > acc.priceRange.max)`. -/
def updMax (cur : Option ℚ) (price : ℚ) : Option ℚ :=
  match cur with
  | none => some price
  | some m => if m == 0 || m < price then some price else some m

/-- One step of the `products.reduce` pass in `GET /api/stats`. -/
def statsStep (acc : Stats) (p : Product) : Stats :=
  { acc with
    byCategory := bumpCat p.category acc.byCategory
    inStock := if p.inStock then acc.inStock + 1 else acc.inStock
    outOfStock := if p.inStock then acc.outOfStock else acc.outOfStock + 1
    totalValue := acc.totalValue + p.price
    priceRange := { min := updMin acc.priceRange.min p.price
                    max := updMax acc.priceRange.max p.price } }

/-- The `GET /api/stats` handler: the reduce with initial accumulator
(`total` preset to the collection length), then
`averagePrice = total > 0 ? totalValue / total : 0`. -/
def computeStats (items : List Product) : Stats :=
  let s := items.foldl statsStep
    { total := items.length, byCategory := [], inStock := 0, outOfStock := 0,
      totalValue := 0, priceRange := { min := none, max := none }, averagePrice := 0 }
  { s with averagePrice := if 0 < s.total then s.totalValue / (s.total : ℚ) else 0 }

/-- The GET routes under test, in the order `server.js` registers them. -/
inductive GetRoute where
  | root
  | productList
  | productSearch
  | stats
  | productById (id : String)
deriving DecidableEq, Repr

/-- Express route matching for GET requests, tried in registration order:
`/`, `/api/products`, `/api/products/search`, `/api/stats`,
`/api/products/:id`; `none` falls through to the 404 catch-all. The path is
given as its slash-separated segments. -/
def dispatchGet (path : List String) : Option GetRoute :=
  match path with
  | [] => some .root
  | ["api", "products"] => some .productList
  | ["api", "products", "search"] => some .productSearch
  | ["api", "stats"] => some .stats
  | ["api", "products", pid] => some (.productById pid)
  | _ => none

/-- `GET /api/products/:id`: `products.find(p => p.id === id)`; `none` models
the thrown `NotFoundError` (404). -/
def getProductById (pid : String) (store : List Product) : Option Product :=
  store.find? (fun p => p.id == pid)

/-- The message of the `NotFoundError` thrown by the id routes. -/
def idNotFoundMsg (pid : String) : String :=
  "Product with ID " ++ pid ++ " not found"

/-- `Boolean(x)` for a body field: its truthiness. -/
def jsBool (f : Field) : Bool := !(isFalsy f)

/-- The destructuring default `inStock = true` of the create handler followed
by `Boolean(inStock)`: `true` when the field is absent, its truthiness
otherwise. -/
def inStockCreate (f : Field) : Bool :=
  match f with
  | .absent => true
  | f => jsBool f

/-- The string payload of a body field; only read by the handlers after
validation has established the field is a string. -/
def fieldStr : Field → String
  | .str s => s
  | _ => ""

/-- The numeric payload of a body field (`Number(x)` on the already-numeric
validated value); only read after validation. -/
def fieldNum : Field → ℚ
  | .num q => q
  | _ => 0

/-- The record built by the POST handler: trimmed name/description, trimmed
lowercased category, defaulted-then-coerced `inStock`, fresh id. -/
def mkProduct (fid : String) (b : Body) : Product :=
  { id := fid
    name := jsTrim (fieldStr b.name)
    description := jsTrim (fieldStr b.description)
    price := fieldNum b.price
    category := jsToLower (jsTrim (fieldStr b.category))
    inStock := inStockCreate b.inStock }

/-- The record built by the PUT handler via spread: the old record's `id`,
all five fields rewritten from the body; `inStock` is `Boolean(inStock)` with
no default, so an absent field coerces to `false`. -/
def updateProduct (old : Product) (b : Body) : Product :=
  { id := old.id
    name := jsTrim (fieldStr b.name)
    description := jsTrim (fieldStr b.description)
    price := fieldNum b.price
    category := jsToLower (jsTrim (fieldStr b.category))
    inStock := jsBool b.inStock }

/-- Result of `POST /api/products`. -/
inductive PostResult where
  | unauthorized (msg : String)
  | invalid (details : List String)
  | created (p : Product)
deriving DecidableEq, Repr

/-- HTTP status of a POST result: 401 from `authMiddleware`, 400 from
`validateProduct`, 201 from the handler. -/
def postStatus : PostResult → Nat
  | .unauthorized _ => 401
  | .invalid _ => 400
  | .created _ => 201

/-- `POST /api/products`: auth gate, then validation, then append the new
record; the middleware stages short-circuit without touching the store. -/
def postProduct (apiKey : Option String) (b : Body) (fid : String)
    (store : List Product) : PostResult × List Product :=
  if authPasses apiKey then
    if 0 < (validateProduct b).length then (.invalid (validateProduct b), store)
    else
      let p := mkProduct fid b
      (.created p, store ++ [p])
  else (.unauthorized authFailMsg, store)

/-- Result of `PUT /api/products/:id`. -/
inductive PutResult where
  | unauthorized (msg : String)
  | invalid (details : List String)
  | notFound (msg : String)
  | updated (p : Product)
deriving DecidableEq, Repr

/-- HTTP status of a PUT result. -/
def putStatus : PutResult → Nat
  | .unauthorized _ => 401
  | .invalid _ => 400
  | .notFound _ => 404
  | .updated _ => 200

/-- `PUT /api/products/:id`: auth gate, validation, `findIndex` on the id,
then in-place assignment `products[productIndex] = updatedProduct`. -/
def putProduct (apiKey : Option String) (pid : String) (b : Body)
    (store : List Product) : PutResult × List Product :=
  if authPasses apiKey then
    if 0 < (validateProduct b).length then (.invalid (validateProduct b), store)
    else
      match store.findIdx? (fun p => p.id == pid) with
      | none => (.notFound (idNotFoundMsg pid), store)
      | some i =>
        match store[i]? with
        | none => (.notFound (idNotFoundMsg pid), store)
        | some old =>
          let u := updateProduct old b
          (.updated u, store.set i u)
  else (.unauthorized authFailMsg, store)

/-- Result of `DELETE /api/products/:id`. -/
inductive DeleteResult where
  | unauthorized (msg : String)
  | notFound (msg : String)
  | deleted (p : Product)
deriving DecidableEq, Repr

/-- HTTP status of a DELETE result. -/
def deleteStatus : DeleteResult → Nat
  | .unauthorized _ => 401
  | .notFound _ => 404
  | .deleted _ => 200

/-- `DELETE /api/products/:id`: auth gate, `findIndex`, then
`products.splice(productIndex, 1)`. -/
def deleteProduct (apiKey : Option String) (pid : String)
    (store : List Product) : DeleteResult × List Product :=
  if authPasses apiKey then
    match store.findIdx? (fun p => p.id == pid) with
    | none => (.notFound (idNotFoundMsg pid), store)
    | some i =>
      match store[i]? with
      | none => (.notFound (idNotFoundMsg pid), store)
      | some p => (.deleted p, store.eraseIdx i)
  else (.unauthorized authFailMsg, store)

/-- Mathematical minimum of a list of rationals, `none` on the empty list.
Spec-side definition, to be compared with the aggregation pass. -/
def listMinQ : List ℚ → Option ℚ
  | [] => none
  | q :: rest => some (rest.foldl min q)

/-- Mathematical maximum of a list of rationals, `none` on the empty list.
Spec-side definition, to be compared with the aggregation pass. -/
def listMaxQ : List ℚ → Option ℚ
  | [] => none
  | q :: rest => some (rest.foldl max q)

/-- A valid update body that omits `inStock`, used to exercise the full-update
validation path. -/
def bodyNoStock : Body :=
  { name := .str "A", description := .str "B", price := .num 5,
    category := .str "c", inStock := .absent }

/-! ## Helper lemmas -/

/-- `Math.ceil(a / l)` agrees with the natural-number ceiling-division formula
`(a + l - 1) / l` for a positive denominator. -/
theorem jsCeilDiv_eq (a l : Nat) (hl : 0 < l) :
    jsCeilDiv a l = (a + l - 1) / l := by
  have hlI : (0 : Int) < (l : Int) := by exact_mod_cast hl
  obtain ⟨q, r, hr, ha⟩ : ∃ q r, r < l ∧ a = l * q + r :=
    ⟨a / l, a % l, Nat.mod_lt a hl, (Nat.div_add_mod a l).symm⟩
  subst ha
  by_cases h0 : r = 0
  · subst h0
    have hL : Int.ediv (-((l * q + 0 : Nat) : Int)) (l : Int) = -(q : Int) :=
      (((Int.ediv_emod_unique hlI).mpr
        (⟨by push_cast; ring, le_refl 0, hlI⟩ :
          (0 : Int) + (l : Int) * (-(q : Int)) = -((l * q + 0 : Nat) : Int) ∧
            (0 : Int) ≤ 0 ∧ (0 : Int) < (l : Int)))).1
    have hR : (l * q + 0 + l - 1) / l = q := by
      have he : l * q + 0 + l - 1 = l * q + (l - 1) := by omega
      rw [he, Nat.mul_add_div hl, Nat.div_eq_of_lt (by omega), Nat.add_zero]
    rw [hR]
    unfold jsCeilDiv
    rw [hL]
    omega
  · have hL : Int.ediv (-((l * q + r : Nat) : Int)) (l : Int) = -((q : Int) + 1) :=
      (((Int.ediv_emod_unique hlI).mpr
        (⟨by push_cast; ring, by omega, by omega⟩ :
          ((l : Int) - (r : Int)) + (l : Int) * (-((q : Int) + 1)) =
              -((l * q + r : Nat) : Int) ∧
            (0 : Int) ≤ (l : Int) - (r : Int) ∧ (l : Int) - (r : Int) < (l : Int)))).1
    have hR : (l * q + r + l - 1) / l = q + 1 := by
      have he : l * q + r + l - 1 = l * (q + 1) + (r - 1) := by
        rw [Nat.mul_add, Nat.mul_one]; omega
      rw [he, Nat.mul_add_div hl, Nat.div_eq_of_lt (by omega)]
    rw [hR]
    unfold jsCeilDiv
    rw [hL]
    omega

/-- The reduce pass never changes the preset `total`. -/
theorem foldl_statsStep_total (items : List Product) (acc : Stats) :
    (items.foldl statsStep acc).total = acc.total := by
  induction items generalizing acc with
  | nil => rfl
  | cons p rest ih => rw [List.foldl_cons, ih]; rfl

/-- The reduce pass accumulates `totalValue` as the running sum of prices. -/
theorem foldl_statsStep_totalValue (items : List Product) (acc : Stats) :
    (items.foldl statsStep acc).totalValue =
      acc.totalValue + (items.map (fun p => p.price)).sum := by
  induction items generalizing acc with
  | nil => simp
  | cons p rest ih =>
    rw [List.foldl_cons, ih]
    simp [statsStep]
    ring

/-- The `priceRange.min` component of the reduce pass is the fold of the
min-update over prices. -/
theorem foldl_statsStep_min (items : List Product) (acc : Stats) :
    (items.foldl statsStep acc).priceRange.min =
      items.foldl (fun c p => updMin c p.price) acc.priceRange.min := by
  induction items generalizing acc with
  | nil => rfl
  | cons p rest ih => rw [List.foldl_cons, List.foldl_cons, ih]; rfl

/-- The `priceRange.max` component of the reduce pass is the fold of the
max-update over prices. -/
theorem foldl_statsStep_max (items : List Product) (acc : Stats) :
    (items.foldl statsStep acc).priceRange.max =
      items.foldl (fun c p => updMax c p.price) acc.priceRange.max := by
  induction items generalizing acc with
  | nil => rfl
  | cons p rest ih => rw [List.foldl_cons, List.foldl_cons, ih]; rfl

/-- On positive prices the falsy-guarded min update behaves as `min`. -/
theorem updMin_pos (m q : ℚ) (hm : 0 < m) :
    updMin (some m) q = some (min m q) := by
  have hm0 : (m == 0) = false := by simp [hm.ne.symm]
  rcases lt_or_le q m with h | h
  · simp [updMin, hm0, h, min_eq_right h.le]
  · simp [updMin, hm0, not_lt.mpr h, min_eq_left h]

/-- On positive prices the falsy-guarded max update behaves as `max`. -/
theorem updMax_pos (m q : ℚ) (hm : 0 < m) :
    updMax (some m) q = some (max m q) := by
  have hm0 : (m == 0) = false := by simp [hm.ne.symm]
  rcases lt_or_le m q with h | h
  · simp [updMax, hm0, h, max_eq_right h.le]
  · simp [updMax, hm0, not_lt.mpr h, max_eq_left h]

/-- Folding the min update over positive prices from a positive seed computes
the running minimum. -/
theorem foldl_updMin_pos (qs : List ℚ) (m : ℚ) (hm : 0 < m)
    (hqs : ∀ q ∈ qs, 0 < q) :
    qs.foldl updMin (some m) = some (qs.foldl min m) := by
  induction qs generalizing m with
  | nil => rfl
  | cons q rest ih =>
    have hq : 0 < q := hqs q (by simp)
    rw [List.foldl_cons, List.foldl_cons, updMin_pos m q hm,
      ih (min m q) (lt_min hm hq) (fun x hx => hqs x (by simp [hx]))]

/-- Folding the max update over positive prices from a positive seed computes
the running maximum. -/
theorem foldl_updMax_pos (qs : List ℚ) (m : ℚ) (hm : 0 < m)
    (hqs : ∀ q ∈ qs, 0 < q) :
    qs.foldl updMax (some m) = some (qs.foldl max m) := by
  induction qs generalizing m with
  | nil => rfl
  | cons q rest ih =>
    have hq : 0 < q := hqs q (by simp)
    rw [List.foldl_cons, List.foldl_cons, updMax_pos m q hm,
      ih (max m q) (lt_max_of_lt_left hm) (fun x hx => hqs x (by simp [hx]))]

/-! ## Claim theorems -/

/-- **C8**: on `GET /api/products`, an absent `inStock` query parameter makes
the stock filter a no-op; a present one keeps exactly the products whose
`inStock` field equals the boolean meaning of the parameter, where the string
means `true` exactly when it equals `"true"` and `false` for every other
present value. -/
theorem stock_filter_semantics :
    (∀ store : List Product, filterByStock none store = store) ∧
    (∀ (store : List Product) (s : String) (p : Product),
      p ∈ filterByStock (some s) store ↔ p ∈ store ∧ p.inStock = (s == "true")) := by
  refine ⟨fun store => rfl, fun store s p => ?_⟩
  simp [filterByStock, List.mem_filter]

/-- **C3**: every POST, PUT or DELETE on the product routes whose `x-api-key`
header is missing or not the configured secret yields status 401 with a
message naming the header, and leaves the store completely unchanged; the
header passes exactly when it equals the secret. -/
theorem auth_gate_blocks_writes (apiKey : Option String)
    (h : authPasses apiKey = false) (b : Body) (pid fid : String)
    (store : List Product) :
    postProduct apiKey b fid store = (.unauthorized authFailMsg, store) ∧
    putProduct apiKey pid b store = (.unauthorized authFailMsg, store) ∧
    deleteProduct apiKey pid store = (.unauthorized authFailMsg, store) ∧
    postStatus (.unauthorized authFailMsg) = 401 ∧
    putStatus (.unauthorized authFailMsg) = 401 ∧
    deleteStatus (.unauthorized authFailMsg) = 401 ∧
    strIncludes authFailMsg "x-api-key" = true ∧
    (∀ k, authPasses k = true ↔ k = some "your-secret-api-key") := by
  refine ⟨?_, ?_, ?_, rfl, rfl, rfl, by decide, ?_⟩
  · simp [postProduct, h]
  · simp [putProduct, h]
  · simp [deleteProduct, h]
  · intro k
    cases k with
    | none => simp [authPasses]
    | some s =>
      simp only [authPasses, Bool.and_eq_true, Bool.not_eq_true',
        beq_eq_false_iff_ne, beq_iff_eq, Option.some.injEq, ne_eq]
      exact ⟨fun hk => hk.2, fun hk => ⟨by rw [hk]; decide, hk⟩⟩

/-- Witness for C3 at a concrete request: no key, the seed store, a valid
body. -/
theorem auth_gate_blocks_writes_witness :
    postProduct none bodyNoStock "x" products = (.unauthorized authFailMsg, products) ∧
    deleteProduct none "1" products = (.unauthorized authFailMsg, products) :=
  ⟨(auth_gate_blocks_writes none rfl bodyNoStock "1" "x" products).1,
   (auth_gate_blocks_writes none rfl bodyNoStock "1" "x" products).2.2.1⟩

/-- **C10**: on create, the default `inStock = true` applies only when the
field is absent; an explicitly supplied boolean is stored as given, so
`inStock: false` persists as `false`. -/
theorem create_inStock_explicit_false (b : Body) (fid : String)
    (store : List Product) (hv : validateProduct b = []) :
    postProduct (some "your-secret-api-key") b fid store =
      (.created (mkProduct fid b), store ++ [mkProduct fid b]) ∧
    (b.inStock = .absent → (mkProduct fid b).inStock = true) ∧
    (∀ bv : Bool, b.inStock = .boolean bv → (mkProduct fid b).inStock = bv) := by
  refine ⟨?_, ?_, ?_⟩
  · simp [postProduct, authPasses, hv]
  · intro hb; simp [mkProduct, inStockCreate, hb]
  · intro bv hb; simp [mkProduct, inStockCreate, hb, jsBool, isFalsy]

/-- Witness for C10: creating with an explicit `inStock: false` stores
`false`. -/
theorem create_inStock_explicit_false_witness :
    (mkProduct "x"
      { name := .str "A", description := .str "B", price := .num 5,
        category := .str "c", inStock := .boolean false }).inStock = false :=
  (create_inStock_explicit_false
    { name := .str "A", description := .str "B", price := .num 5,
      category := .str "c", inStock := .boolean false }
    "x" [] (by decide)).2.2 false rfl

/-- **C7**: `GET /api/products/search` rejects an absent or empty `q` with the
400 message, otherwise returns exactly the stored products whose name or
description contains `q` case-insensitively (in insertion order) together
with the original term and the match count; and the dispatcher sends the
`search` path to the search handler, not to the `:id` route. -/
theorem search_route_correct (store : List Product) (s : String) (hs : s ≠ "") :
    searchProducts none store =
      .missingQuery "Search query parameter \"q\" is required" ∧
    searchProducts (some "") store =
      .missingQuery "Search query parameter \"q\" is required" ∧
    searchProducts (some s) store =
      .found s (store.filter (fun p => matchesTerm p (jsToLower s)))
        (store.filter (fun p => matchesTerm p (jsToLower s))).length ∧
    (∀ p, p ∈ store.filter (fun p => matchesTerm p (jsToLower s)) ↔
      p ∈ store ∧
        (strIncludes (jsToLower p.name) (jsToLower s) ||
          strIncludes (jsToLower p.description) (jsToLower s)) = true) ∧
    dispatchGet ["api", "products", "search"] = some .productSearch := by
  refine ⟨rfl, rfl, ?_, ?_, rfl⟩
  · simp [searchProducts, hs]
  · intro p
    simp [matchesTerm, List.mem_filter]

/-- Witness for C7 at the concrete term `"laptop"` against the seed store. -/
theorem search_route_correct_witness :
    searchProducts (some "laptop") products =
      .found "laptop" (products.filter (fun p => matchesTerm p (jsToLower "laptop")))
        (products.filter (fun p => matchesTerm p (jsToLower "laptop"))).length :=
  (search_route_correct products "laptop" (by decide)).2.2.1

/-- **C2** counterexample: a full-update body that omits `inStock` passes
`validateProduct` (no 400) and the PUT persists a record, with
`inStock = false`; the claim said such a request is rejected and never
persists. -/
theorem put_absent_inStock_accepted :
    validateProduct bodyNoStock = [] ∧
    (putProduct (some "your-secret-api-key") "1" bodyNoStock products).1 =
      .updated { id := "1", name := "A", description := "B", price := 5,
                 category := "c", inStock := false } ∧
    ((putProduct (some "your-secret-api-key") "1" bodyNoStock products).2)[0]? =
      some { id := "1", name := "A", description := "B", price := 5,
             category := "c", inStock := false } := by
  decide

/-- **C2** (amended): a PUT whose valid body omits `inStock` is accepted by
the validation stage (`inStock` is optional there) and persists the targeted
record with `inStock = false`, the boolean coercion of the absent value. -/
theorem put_absent_inStock_persists (b : Body) (hb : b.inStock = .absent)
    (store : List Product) (pid : String) (hv : validateProduct b = [])
    (i : Nat) (old : Product)
    (hidx : store.findIdx? (fun p => p.id == pid) = some i)
    (hget : store[i]? = some old) :
    putProduct (some "your-secret-api-key") pid b store =
      (.updated (updateProduct old b), store.set i (updateProduct old b)) ∧
    (updateProduct old b).inStock = false := by
  constructor
  · simp [putProduct, authPasses, hv, hidx, hget]
  · simp [updateProduct, jsBool, hb, isFalsy]

/-- Witness for the amended C2 at product `"1"` of the seed store. -/
theorem put_absent_inStock_persists_witness :
    putProduct (some "your-secret-api-key") "1" bodyNoStock products =
      (.updated (updateProduct
        { id := "1", name := "Laptop",
          description := "High-performance laptop with 16GB RAM",
          price := 1200, category := "electronics", inStock := true } bodyNoStock),
       products.set 0 (updateProduct
        { id := "1", name := "Laptop",
          description := "High-performance laptop with 16GB RAM",
          price := 1200, category := "electronics", inStock := true } bodyNoStock)) ∧
    (updateProduct
      { id := "1", name := "Laptop",
        description := "High-performance laptop with 16GB RAM",
        price := 1200, category := "electronics", inStock := true }
      bodyNoStock).inStock = false :=
  put_absent_inStock_persists bodyNoStock rfl products "1" (by decide) 0
    { id := "1", name := "Laptop",
      description := "High-performance laptop with 16GB RAM",
      price := 1200, category := "electronics", inStock := true }
    (by decide) (by decide)

/-- **C9**: a successful PUT with a valid body rewrites the five fields of
the targeted record from the body, preserves its `id` and its position, and
leaves every other record unchanged. -/
theorem put_frame (b : Body) (store : List Product) (pid : String)
    (hv : validateProduct b = []) (i : Nat) (old : Product)
    (hidx : store.findIdx? (fun p => p.id == pid) = some i)
    (hget : store[i]? = some old) :
    putProduct (some "your-secret-api-key") pid b store =
      (.updated (updateProduct old b), store.set i (updateProduct old b)) ∧
    (updateProduct old b).id = old.id ∧
    (updateProduct old b).name = jsTrim (fieldStr b.name) ∧
    (updateProduct old b).description = jsTrim (fieldStr b.description) ∧
    (updateProduct old b).price = fieldNum b.price ∧
    (updateProduct old b).category = jsToLower (jsTrim (fieldStr b.category)) ∧
    (updateProduct old b).inStock = jsBool b.inStock ∧
    (store.set i (updateProduct old b)).length = store.length ∧
    (store.set i (updateProduct old b))[i]? = some (updateProduct old b) ∧
    (∀ j, j ≠ i → (store.set i (updateProduct old b))[j]? = store[j]?) := by
  have hilt : i < store.length := by
    by_contra hge
    rw [List.getElem?_eq_none (by omega)] at hget
    exact Option.noConfusion hget
  refine ⟨?_, rfl, rfl, rfl, rfl, rfl, rfl, List.length_set store i _, ?_, ?_⟩
  · simp [putProduct, authPasses, hv, hidx, hget]
  · exact List.getElem?_set_self (by simpa using hilt)
  · intro j hj
    exact List.getElem?_set_ne hj.symm

/-- Witness for C9: updating product `"2"` of the seed store. -/
theorem put_frame_witness :
    putProduct (some "your-secret-api-key") "2" bodyNoStock products =
      (.updated (updateProduct
        { id := "2", name := "Smartphone",
          description := "Latest model with 128GB storage",
          price := 800, category := "electronics", inStock := true } bodyNoStock),
       products.set 1 (updateProduct
        { id := "2", name := "Smartphone",
          description := "Latest model with 128GB storage",
          price := 800, category := "electronics", inStock := true } bodyNoStock)) ∧
    (updateProduct
      { id := "2", name := "Smartphone",
        description := "Latest model with 128GB storage",
        price := 800, category := "electronics", inStock := true }
      bodyNoStock).id = "2" :=
  ⟨(put_frame bodyNoStock products "2" (by decide) 1
      { id := "2", name := "Smartphone",
        description := "Latest model with 128GB storage",
        price := 800, category := "electronics", inStock := true }
      (by decide) (by decide)).1,
   (put_frame bodyNoStock products "2" (by decide) 1
      { id := "2", name := "Smartphone",
        description := "Latest model with 128GB storage",
        price := 800, category := "electronics", inStock := true }
      (by decide) (by decide)).2.1⟩

/-- **C6** counterexample: the create handler trims the category as well as
lowercasing it, so for the valid body with category `" Cat "` the fetched
record's category is `"cat"`, which is not the submitted category lowercased
(`" cat "`). -/
theorem create_roundtrip_category_cex :
    validateProduct
      { name := .str "Test", description := .str "d", price := .num 10,
        category := .str " Cat ", inStock := .boolean true } = [] ∧
    getProductById "id-1"
      (postProduct (some "your-secret-api-key")
        { name := .str "Test", description := .str "d", price := .num 10,
          category := .str " Cat ", inStock := .boolean true } "id-1" []).2 =
      some { id := "id-1", name := "Test", description := "d", price := 10,
             category := "cat", inStock := true } ∧
    ¬ ("cat" = jsToLower " Cat ") := by
  decide

/-- **C6** (amended): creating a valid product and fetching it by the fresh
id returns the same name, description, price and inStock (name and
description trimmed) and a category equal to the submitted category trimmed
and lowercased. -/
theorem create_roundtrip_trimmed (store : List Product) (fid n d c : String)
    (pr : ℚ) (st : Bool) (b : Body)
    (hb : b = { name := .str n, description := .str d, price := .num pr,
                category := .str c, inStock := .boolean st })
    (hv : validateProduct b = []) (hfresh : ∀ p ∈ store, p.id ≠ fid) :
    postProduct (some "your-secret-api-key") b fid store =
      (.created (mkProduct fid b), store ++ [mkProduct fid b]) ∧
    getProductById fid (store ++ [mkProduct fid b]) = some (mkProduct fid b) ∧
    (mkProduct fid b).id = fid ∧
    (mkProduct fid b).name = jsTrim n ∧
    (mkProduct fid b).description = jsTrim d ∧
    (mkProduct fid b).price = pr ∧
    (mkProduct fid b).category = jsToLower (jsTrim c) ∧
    (mkProduct fid b).inStock = st := by
  subst hb
  refine ⟨?_, ?_, rfl, rfl, rfl, rfl, rfl, ?_⟩
  · simp [postProduct, authPasses, hv]
  · rw [getProductById, List.find?_append]
    have h1 : store.find? (fun p => p.id == fid) = none := by
      rw [List.find?_eq_none]
      intro p hp
      simpa using hfresh p hp
    rw [h1]
    simp [mkProduct]
  · simp [mkProduct, inStockCreate, jsBool, isFalsy]

/-- Witness for the amended C6 at the specification's example body. -/
theorem create_roundtrip_trimmed_witness :
    getProductById "id-9" ([] ++ [mkProduct "id-9"
      { name := .str "Test", description := .str "d", price := .num 10,
        category := .str "Cat", inStock := .boolean true }]) =
      some (mkProduct "id-9"
        { name := .str "Test", description := .str "d", price := .num 10,
          category := .str "Cat", inStock := .boolean true }) ∧
    (mkProduct "id-9"
      { name := .str "Test", description := .str "d", price := .num 10,
        category := .str "Cat", inStock := .boolean true }).category =
      jsToLower (jsTrim "Cat") :=
  ⟨(create_roundtrip_trimmed [] "id-9" "Test" "d" "Cat" 10 true _ rfl (by decide)
      (fun p hp => absurd hp (List.not_mem_nil p))).2.1,
   (create_roundtrip_trimmed [] "id-9" "Test" "d" "Cat" 10 true _ rfl (by decide)
      (fun p hp => absurd hp (List.not_mem_nil p))).2.2.2.2.2.2.1⟩

/-- **C4**: over any collection of (positively priced) products the stats
pass returns `total` = record count, `totalValue` = sum of prices,
`averagePrice` = `totalValue / total` with the zero-total case special-cased
to `0`, and `priceRange` bounds equal to the true minimum and maximum price;
on the empty collection `total = 0`, `averagePrice = 0` and both bounds are
null. -/
theorem stats_correct (items : List Product) (hpos : ∀ p ∈ items, 0 < p.price) :
    (computeStats items).total = items.length ∧
    (computeStats items).totalValue = (items.map (fun p => p.price)).sum ∧
    (computeStats items).averagePrice =
      (if items.length = 0 then 0
       else (items.map (fun p => p.price)).sum / (items.length : ℚ)) ∧
    (computeStats items).priceRange.min = listMinQ (items.map (fun p => p.price)) ∧
    (computeStats items).priceRange.max = listMaxQ (items.map (fun p => p.price)) ∧
    computeStats [] =
      { total := 0, byCategory := [], inStock := 0, outOfStock := 0,
        totalValue := 0, priceRange := { min := none, max := none },
        averagePrice := 0 } := by
  have hT : (computeStats items).total = items.length := by
    simp only [computeStats]
    rw [foldl_statsStep_total]
  have hV : (computeStats items).totalValue = (items.map (fun p => p.price)).sum := by
    simp only [computeStats]
    rw [foldl_statsStep_totalValue]
    simp
  refine ⟨hT, hV, ?_, ?_, ?_, rfl⟩
  · simp only [computeStats]
    rw [foldl_statsStep_total, foldl_statsStep_totalValue]
    rcases Nat.eq_zero_or_pos items.length with h | h
    · simp [h]
    · rw [if_pos (by simpa using h), if_neg (by omega)]
      simp
  · cases items with
    | nil => rfl
    | cons p rest =>
      have hp : 0 < p.price := hpos p (by simp)
      simp only [computeStats]
      rw [foldl_statsStep_min, List.foldl_cons]
      show rest.foldl (fun c x => updMin c x.price) (some p.price) =
        listMinQ ((p :: rest).map (fun p => p.price))
      rw [← List.foldl_map (f := fun x : Product => x.price) (g := updMin),
        foldl_updMin_pos _ _ hp (fun q hq => by
          obtain ⟨x, hx, rfl⟩ := List.mem_map.mp hq
          exact hpos x (by simp [hx]))]
      rfl
  · cases items with
    | nil => rfl
    | cons p rest =>
      have hp : 0 < p.price := hpos p (by simp)
      simp only [computeStats]
      rw [foldl_statsStep_max, List.foldl_cons]
      show rest.foldl (fun c x => updMax c x.price) (some p.price) =
        listMaxQ ((p :: rest).map (fun p => p.price))
      rw [← List.foldl_map (f := fun x : Product => x.price) (g := updMax),
        foldl_updMax_pos _ _ hp (fun q hq => by
          obtain ⟨x, hx, rfl⟩ := List.mem_map.mp hq
          exact hpos x (by simp [hx]))]
      rfl

/-- Witness for C4 at the seed store (all prices positive). -/
theorem stats_correct_witness :
    (computeStats products).total = products.length ∧
    (computeStats products).priceRange.min =
      listMinQ (products.map (fun p => p.price)) ∧
    (computeStats products).priceRange.max =
      listMaxQ (products.map (fun p => p.price)) :=
  ⟨(stats_correct products (by decide)).1,
   (stats_correct products (by decide)).2.2.2.1,
   (stats_correct products (by decide)).2.2.2.2.1⟩

/-- **C5**: for positive `page` and `limit`, the returned page is exactly the
slice `items[(page-1)*limit, page*limit)` of the filtered list, with
`totalPages = ceil(totalProducts/limit)`, `currentPage = page`,
`productsPerPage = limit`, `hasNextPage = (page*limit < totalProducts)` and
`hasPrevPage = (page > 1)`; and `GET /api/products` paginates the filtered
list, not the raw store. -/
theorem paginate_window (filtered : List Product) (page limit : Int)
    (hp : 1 ≤ page) (hl : 1 ≤ limit) :
    ∃ pg, paginate page limit filtered =
        .ok ((filtered.drop ((page.toNat - 1) * limit.toNat)).take limit.toNat) pg ∧
      pg.currentPage = page ∧
      pg.totalPages = (filtered.length + limit.toNat - 1) / limit.toNat ∧
      pg.totalProducts = filtered.length ∧
      pg.productsPerPage = limit ∧
      (pg.hasNextPage = true ↔ page * limit < (filtered.length : Int)) ∧
      (pg.hasPrevPage = true ↔ 1 < page) ∧
      (∀ qcat qstock qpage qlimit store,
        getProducts qcat qstock qpage qlimit store =
          paginate (parseOrDefault qpage 1) (parseOrDefault qlimit 10)
            (filterByStock qstock (filterByCategory qcat store))) := by
  have hnot : ¬ (page < 1 ∨ limit < 1) := by omega
  have hle : limit.toNat ≤ page.toNat * limit.toNat :=
    Nat.le_mul_of_pos_left _ (by omega)
  have hslice : page.toNat * limit.toNat - (page.toNat - 1) * limit.toNat =
      limit.toNat := by
    rw [Nat.sub_mul, one_mul, Nat.sub_sub_self hle]
  have hcast : ((page.toNat * limit.toNat : Nat) : Int) = page * limit := by
    push_cast
    rw [Int.toNat_of_nonneg (by omega), Int.toNat_of_nonneg (by omega)]
  refine ⟨{ currentPage := page,
            totalPages := jsCeilDiv filtered.length limit.toNat,
            totalProducts := filtered.length,
            productsPerPage := limit,
            hasNextPage := decide (page.toNat * limit.toNat < filtered.length),
            hasPrevPage := decide (1 < page) },
    ?_, rfl, jsCeilDiv_eq _ _ (by omega), rfl, rfl, ?_, decide_eq_true_iff,
    fun _ _ _ _ _ => rfl⟩
  · simp only [paginate]
    rw [if_neg hnot, hslice]
  · rw [decide_eq_true_iff, ← hcast]
    exact Nat.cast_lt.symm

/-- Witness for C5 at page 2, limit 2 over the seed store. -/
theorem paginate_window_witness :
    ∃ pg, paginate 2 2 products =
        .ok ((products.drop (((2 : Int).toNat - 1) * (2 : Int).toNat)).take
          (2 : Int).toNat) pg ∧
      pg.currentPage = 2 ∧
      pg.totalPages = (products.length + (2 : Int).toNat - 1) / (2 : Int).toNat ∧
      pg.totalProducts = products.length ∧
      pg.productsPerPage = 2 ∧
      (pg.hasNextPage = true ↔ (2 : Int) * 2 < (products.length : Int)) ∧
      (pg.hasPrevPage = true ↔ 1 < (2 : Int)) ∧
      (∀ qcat qstock qpage qlimit store,
        getProducts qcat qstock qpage qlimit store =
          paginate (parseOrDefault qpage 1) (parseOrDefault qlimit 10)
            (filterByStock qstock (filterByCategory qcat store))) :=
  paginate_window products 2 2 (by decide) (by decide)

/-- **C1** counterexample: the request `page=0&limit=0` is served with the
defaults (page 1, limit 10) instead of failing with 400, because
`parseInt('0')` yields `0`, which is falsy, so `|| 1` (resp. `|| 10`)
replaces it before the positivity check runs. -/
theorem pagination_zero_served :
    getProducts none none (some "0") (some "0") products =
      .ok products
        { currentPage := 1, totalPages := 1, totalProducts := 5,
          productsPerPage := 10, hasNextPage := false, hasPrevPage := false } := by
  decide

/-- **C1** (amended): `page` and `limit` default to 1 and 10 when the
parameter is absent, non-numeric, or parses to `0` (zero is falsy, so it
falls back to the default instead of being rejected); the effective values
are never `0`, a negative effective value fails with the 400, and positive
effective values are served as the current page and page size. -/
theorem pagination_zero_defaults (qcat qstock qpage qlimit : Option String)
    (store : List Product) :
    (qpage = none → parseOrDefault qpage 1 = 1) ∧
    (∀ s, qpage = some s → parseIntJS s = none → parseOrDefault qpage 1 = 1) ∧
    (∀ s, qpage = some s → parseIntJS s = some 0 → parseOrDefault qpage 1 = 1) ∧
    (qlimit = none → parseOrDefault qlimit 10 = 10) ∧
    (∀ s, qlimit = some s → parseIntJS s = none → parseOrDefault qlimit 10 = 10) ∧
    (∀ s, qlimit = some s → parseIntJS s = some 0 → parseOrDefault qlimit 10 = 10) ∧
    parseOrDefault qpage 1 ≠ 0 ∧
    parseOrDefault qlimit 10 ≠ 0 ∧
    (parseOrDefault qpage 1 < 1 ∨ parseOrDefault qlimit 10 < 1 →
      getProducts qcat qstock qpage qlimit store =
        .badPagination "Page and limit must be positive integers") ∧
    (1 ≤ parseOrDefault qpage 1 → 1 ≤ parseOrDefault qlimit 10 →
      ∃ items pg, getProducts qcat qstock qpage qlimit store = .ok items pg ∧
        pg.currentPage = parseOrDefault qpage 1 ∧
        pg.productsPerPage = parseOrDefault qlimit 10) := by
  have hno : ∀ (d : Int) (s : String), parseIntJS s = none →
      parseOrDefault (some s) d = d := by
    intro d s h
    simp [parseOrDefault, h]
  have hzero : ∀ (d : Int) (s : String), parseIntJS s = some 0 →
      parseOrDefault (some s) d = d := by
    intro d s h
    simp [parseOrDefault, h]
  have hnz : ∀ (q : Option String) (d : Int), d ≠ 0 → parseOrDefault q d ≠ 0 := by
    intro q d hd
    cases q with
    | none => exact hd
    | some s =>
      cases hpi : parseIntJS s with
      | none => simpa [parseOrDefault, hpi] using hd
      | some v =>
        by_cases hv : v = 0
        · simp [parseOrDefault, hpi, hv]
          exact hd
        · simp [parseOrDefault, hpi, hv]
  refine ⟨fun h => by rw [h]; rfl,
    fun s hs hp => by rw [hs]; exact hno 1 s hp,
    fun s hs hp => by rw [hs]; exact hzero 1 s hp,
    fun h => by rw [h]; rfl,
    fun s hs hp => by rw [hs]; exact hno 10 s hp,
    fun s hs hp => by rw [hs]; exact hzero 10 s hp,
    hnz qpage 1 (by decide), hnz qlimit 10 (by decide), ?_, ?_⟩
  · intro h
    simp only [getProducts, paginate]
    rw [if_pos h]
  · intro hp hl
    simp only [getProducts, paginate]
    rw [if_neg (by omega)]
    exact ⟨_, _, rfl, rfl, rfl⟩

/-- Witness for the amended C1: `page=0` defaults to 1; `limit=-3` is
rejected with the 400. -/
theorem pagination_zero_defaults_witness :
    parseOrDefault (some "0") 1 = 1 ∧
    getProducts none none (some "0") (some "-3") [] =
      .badPagination "Page and limit must be positive integers" :=
  ⟨(pagination_zero_defaults none none (some "0") (some "-3") []).2.2.1 "0" rfl
      (by decide),
   (pagination_zero_defaults none none (some "0") (some "-3")
      []).2.2.2.2.2.2.2.2.1 (Or.inr (by decide))⟩

end ProductApi
